import Mathlib

/-!
# Verification of `robomimic/scripts/dataset_states_to_obs.py`

This file gives a shallow embedding of the dataset-conversion script and proves
properties of its replay loop (`extract_trajectory`), its camera-information
helper (`get_camera_info`) and its per-trajectory output processing
(`dataset_states_to_obs`).

The physics simulator is an external collaborator: it is modelled as an
abstract structure `Env` of uninterpreted functions (deterministic responses to
`reset_to`, `step`, `get_reward`, `is_success`).  The replay loop is embedded
together with the trace of environment operations it performs, so that the
order of simulator calls is itself a provable artifact.
-/

namespace DatasetStatesToObs

/-- The two kinds of uncaught Python exceptions relevant to the script:
`assertionError` models a failing `assert` statement, `nameError` models
reading a local variable that was never assigned. -/
inductive ExtractError : Type where
  | assertionError : ExtractError
  | nameError : ExtractError
deriving DecidableEq, Repr

/-- One operation performed on the simulator environment:
`env.reset()`, `env.reset_to(state)`, or `env.step(action)`. -/
inductive EnvOp (σ α : Type) : Type where
  | reset : EnvOp σ α
  | resetTo : σ → EnvOp σ α
  | step : α → EnvOp σ α
deriving DecidableEq, Repr

/-- Abstract model of the simulator environment (`EnvBase` instance).
`σ` is the type of flattened simulator states, `α` the type of actions,
`Ob` the type of observation dictionaries, `CI` the type of per-call camera
info dictionaries, `R` the type of rewards.

* `resetToObs s` / `resetToCam s`: the pair returned by `env.reset_to({"states": s})`;
* `step s a`: the simulator state after `env.step(a)` when the current state is `s`;
* `stepObs s a`: the observation returned by that `env.step(a)` call;
* `reward s`: `env.get_reward()` when the current simulator state is `s`;
* `success s`: `env.is_success()["task"]` when the current simulator state is `s`. -/
structure Env (σ α Ob CI R : Type) : Type where
  resetToObs : σ → Ob
  resetToCam : σ → CI
  step : σ → α → σ
  stepObs : σ → α → Ob
  reward : σ → R
  success : σ → Bool

/-- The per-step lists accumulated by the replay loop of `extract_trajectory`
(lines 189-229): observations, next observations, rewards, dones, and the
camera-info dictionaries appended at each step. -/
structure LoopOut (σ Ob CI R : Type) : Type where
  obs : List Ob
  next_obs : List Ob
  rewards : List R
  dones : List Nat
  camInfos : List CI
deriving DecidableEq, Repr

/-- The trajectory dictionary returned by `extract_trajectory` (line 245):
per-step lists plus the verbatim `actions` and `states` inputs. -/
structure Traj (σ α Ob CI R : Type) : Type where
  obs : List Ob
  next_obs : List Ob
  rewards : List R
  dones : List Nat
  actions : List α
  states : List σ
  camInfos : List CI
deriving DecidableEq, Repr

/-- The done signal computed at loop index `t` (lines 205-213):
```
done = False
if (done_mode == 1) or (done_mode == 2): done = done or (t == traj_len)
if (done_mode == 0) or (done_mode == 2): done = done or env.is_success()["task"]
done = int(done)
``` -/
def doneCalc (dm t n : Nat) (succ : Bool) : Nat :=
  let d : Bool := (((dm == 1) || (dm == 2)) && (t == n)) || (((dm == 0) || (dm == 2)) && succ)
  if d then 1 else 0

/-- Prepend one step's appended values onto the accumulated loop output
(lines 216-225), propagating a failure of a later iteration. -/
def consOut (obs next_obs : Ob) (r : R) (done : Nat) (cam : CI) :
    Except ExtractError (LoopOut σ Ob CI R) → Except ExtractError (LoopOut σ Ob CI R)
  | Except.error e => Except.error e
  | Except.ok o =>
      Except.ok ⟨obs :: o.obs, next_obs :: o.next_obs, r :: o.rewards, done :: o.dones,
        cam :: o.camInfos⟩

variable {σ α Ob CI R : Type}

/-- The replay loop `for t in range(1, traj_len + 1)` of `extract_trajectory`
(lines 189-229).  `t` is the current (1-based) loop index, `rem` the number of
iterations remaining, `obs`/`cam` the Python locals `obs`/`camera_info`,
`nextCam` the Python local `next_camera_info` (`none` while it has never been
assigned), and `cur` the current simulator state.  If `t == traj_len` the final
action is played (`env.step`), otherwise the simulator is reset to
`states[t]`.  The update `camera_info = deepcopy(next_camera_info)` at line 229
raises a `NameError` when `next_camera_info` was never assigned.  The function
returns the trace of environment operations performed together with either the
accumulated per-step lists or the exception raised. -/
def extractLoop [Inhabited σ] [Inhabited α] (env : Env σ α Ob CI R) (states : List σ)
    (actions : List α) (dm n : Nat) :
    Nat → Nat → Ob → CI → Option CI → σ →
    List (EnvOp σ α) × Except ExtractError (LoopOut σ Ob CI R)
  | _, 0, _, _, _, _ => ([], Except.ok ⟨[], [], [], [], []⟩)
  | t, rem + 1, obs, cam, nextCam, cur =>
    if t = n then
      let a := actions.getD (t - 1) default
      let nextObs := env.stepObs cur a
      let newSim := env.step cur a
      let r := env.reward newSim
      let done := doneCalc dm t n (env.success newSim)
      match nextCam with
      | none => ([EnvOp.step a], Except.error ExtractError.nameError)
      | some c =>
        let rest := extractLoop env states actions dm n (t + 1) rem nextObs c (some c) newSim
        (EnvOp.step a :: rest.1, consOut obs nextObs r done cam rest.2)
    else
      let s := states.getD t default
      let nextObs := env.resetToObs s
      let nc := env.resetToCam s
      let r := env.reward s
      let done := doneCalc dm t n (env.success s)
      let rest := extractLoop env states actions dm n (t + 1) rem nextObs nc (some nc) s
      (EnvOp.resetTo s :: rest.1, consOut obs nextObs r done cam rest.2)

/-- `extract_trajectory(env, initial_state, states, actions, done_mode, ...)`
(lines 133-245).  After the assertion `states.shape[0] == actions.shape[0]`
(line 157), the environment is reset (`env.reset()`, line 160), reset to the
initial state (line 161), and the replay loop runs.  The first component of the
result is the trace of environment operations performed; the second is the
returned trajectory dictionary or the exception raised.  On assertion failure
no environment operation is performed. -/
def extract_trajectory [Inhabited σ] [Inhabited α] (env : Env σ α Ob CI R) (initial : σ)
    (states : List σ) (actions : List α) (dm : Nat) :
    List (EnvOp σ α) × Except ExtractError (Traj σ α Ob CI R) :=
  if states.length = actions.length then
    let n := states.length
    let res := extractLoop env states actions dm n 1 n (env.resetToObs initial)
      (env.resetToCam initial) none initial
    (EnvOp.reset :: EnvOp.resetTo initial :: res.1,
      match res.2 with
      | Except.error e => Except.error e
      | Except.ok o =>
          Except.ok ⟨o.obs, o.next_obs, o.rewards, o.dones, actions, states, o.camInfos⟩)
  else ([], Except.error ExtractError.assertionError)

/-- The post-transition simulator state of (1-based) step `i + 1` of the replay
loop: for a non-final step the simulator is reset to `states[i + 1]`; for the
final step the simulator steps with the last action from the state it was left
in (the initial state when the trajectory has a single step, otherwise
`states[n - 1]`). -/
def postAt [Inhabited σ] [Inhabited α] (env : Env σ α Ob CI R) (initial : σ)
    (states : List σ) (actions : List α) (n i : Nat) : σ :=
  if i + 1 = n then
    env.step (if n = 1 then initial else states.getD (n - 1) default)
      (actions.getD (n - 1) default)
  else states.getD (i + 1) default

/-- The post-transition simulator states of all steps of the trajectory. -/
def postStates [Inhabited σ] [Inhabited α] (env : Env σ α Ob CI R) (initial : σ)
    (states : List σ) (actions : List α) : List σ :=
  (List.range states.length).map (postAt env initial states actions states.length)

/-- The environment operation performed by (1-based) loop iteration `u`:
`env.step(actions[n-1])` at the final iteration, `env.reset_to(states[u])`
otherwise. -/
def opAt [Inhabited σ] [Inhabited α] (states : List σ) (actions : List α) (n u : Nat) :
    EnvOp σ α :=
  if u = n then EnvOp.step (actions.getD (n - 1) default)
  else EnvOp.resetTo (states.getD u default)

/-- The done value produced by (1-based) loop iteration `u`, as a function of
the iteration index alone. -/
def doneAt [Inhabited σ] [Inhabited α] (env : Env σ α Ob CI R) (initial : σ)
    (states : List σ) (actions : List α) (dm n u : Nat) : Nat :=
  doneCalc dm u n (env.success (postAt env initial states actions n (u - 1)))

lemma range_map_shift {β : Type} (f : Nat → β) (t m : Nat) :
    (List.range (m + 1)).map (fun i => f (t + i)) =
      f t :: (List.range m).map (fun i => f (t + 1 + i)) := by
  rw [List.range_succ_eq_map, List.map_cons, List.map_map]
  refine congrArg₂ _ (by rw [Nat.add_zero]) (List.map_congr_left fun i _ => ?_)
  show f (t + (i + 1)) = f (t + 1 + i)
  rw [Nat.add_comm i 1, Nat.add_assoc]

/-- Main characterization of the replay loop, by induction on the number of
remaining iterations.  Under the loop invariants (`t + rem = n + 1`, `t ≥ 1`,
the current simulator state is the one iteration `t - 1` reset to, and
`next_camera_info` has been assigned exactly when some iteration has already
taken the non-final branch), the loop performs the operations `opAt` for
iterations `t, t+1, ..., n`, fails with a `NameError` exactly when its very
first iteration is also the final one, and otherwise returns per-step lists of
length `rem` whose dones are given by `doneAt`. -/
lemma extractLoop_spec [Inhabited σ] [Inhabited α] (env : Env σ α Ob CI R) (initial : σ)
    (states : List σ) (actions : List α) (dm n : Nat) :
    ∀ rem t (obs : Ob) (cam : CI) (nc : Option CI) (cur : σ),
      t + rem = n + 1 → 1 ≤ t →
      cur = (if t = 1 then initial else states.getD (t - 1) default) →
      (nc = none ↔ t = 1) →
      (extractLoop env states actions dm n t rem obs cam nc cur).1 =
          (List.range rem).map (fun i => opAt states actions n (t + i)) ∧
      ((1 ≤ rem ∧ t = n ∧ t = 1) →
        (extractLoop env states actions dm n t rem obs cam nc cur).2 =
          Except.error ExtractError.nameError) ∧
      (¬ (1 ≤ rem ∧ t = n ∧ t = 1) →
        ∃ o, (extractLoop env states actions dm n t rem obs cam nc cur).2 = Except.ok o ∧
          o.dones = (List.range rem).map
            (fun i => doneAt env initial states actions dm n (t + i)) ∧
          o.obs.length = rem ∧ o.next_obs.length = rem ∧
          o.rewards.length = rem ∧ o.camInfos.length = rem) := by
  intro rem
  induction rem with
  | zero =>
    intro t obs cam nc cur hinv ht hcur hnc
    refine ⟨by simp [extractLoop], fun h => absurd h.1 (by omega), fun _ => ?_⟩
    exact ⟨⟨[], [], [], [], []⟩, by simp [extractLoop]⟩
  | succ rem ih =>
    intro t obs cam nc cur hinv ht hcur hnc
    by_cases htn : t = n
    · -- final iteration: play the last action
      have hrem : rem = 0 := by omega
      subst hrem
      cases nc with
      | none =>
        have ht1 : t = 1 := hnc.mp rfl
        have hops : (extractLoop env states actions dm n t 1 obs cam none cur).1 =
            [EnvOp.step (actions.getD (t - 1) default)] := by
          simp [extractLoop, htn]
        refine ⟨?_, fun _ => by simp [extractLoop, htn], fun h => absurd ⟨by omega, htn, ht1⟩ h⟩
        rw [hops]
        simp [opAt, htn, List.range_succ, List.range_zero]
      | some c =>
        have ht1 : ¬ t = 1 := fun h => by simpa [h] using hnc.mpr h
        have hcur2 : cur = states.getD (n - 1) default := by
          rw [hcur, if_neg ht1, htn]
        have hpost : postAt env initial states actions n (t - 1) =
            env.step cur (actions.getD (n - 1) default) := by
          rw [postAt, if_pos (by omega), if_neg (by omega), hcur2]
        refine ⟨?_, fun h => absurd h.2.2 ht1, fun _ => ?_⟩
        · simp [extractLoop, htn, opAt, List.range_succ, List.range_zero]
        · refine ⟨⟨[obs], [env.stepObs cur (actions.getD (t - 1) default)],
            [env.reward (env.step cur (actions.getD (t - 1) default))],
            [doneCalc dm t n (env.success (env.step cur (actions.getD (t - 1) default)))],
            [cam]⟩, ?_, ?_, by simp, by simp, by simp, by simp⟩
          · simp [extractLoop, htn, consOut]
          · have hr1 : (List.range 1).map
                (fun i => doneAt env initial states actions dm n (t + i)) =
                [doneAt env initial states actions dm n t] := by
              simp [List.range_succ]
            rw [hr1, doneAt, hpost, htn]
    · -- non-final iteration: reset to states[t]
      have hlt : t < n := by omega
      have hpost : postAt env initial states actions n (t - 1) = states.getD t default := by
        rw [postAt, if_neg (by omega)]
        congr 1
        omega
      obtain ⟨ihops, _, ihok⟩ := ih (t + 1) (env.resetToObs (states.getD t default))
        (env.resetToCam (states.getD t default)) (some (env.resetToCam (states.getD t default)))
        (states.getD t default) (by omega) (by omega)
        (by rw [if_neg (by omega)]; simp) (by simp; omega)
      obtain ⟨o, hok, hdones, h1, h2, h3, h4⟩ := ihok (by omega)
      refine ⟨?_, fun h => absurd h.2.1 htn, fun _ => ?_⟩
      · have : (extractLoop env states actions dm n t (rem + 1) obs cam nc cur).1 =
            EnvOp.resetTo (states.getD t default) ::
              (extractLoop env states actions dm n (t + 1) rem
                (env.resetToObs (states.getD t default))
                (env.resetToCam (states.getD t default))
                (some (env.resetToCam (states.getD t default)))
                (states.getD t default)).1 := by
          simp [extractLoop, htn]
        rw [this, ihops, range_map_shift (fun u => opAt states actions n u) t rem]
        rw [opAt, if_neg htn]
      · refine ⟨⟨obs :: o.obs, env.resetToObs (states.getD t default) :: o.next_obs,
          env.reward (states.getD t default) :: o.rewards,
          doneCalc dm t n (env.success (states.getD t default)) :: o.dones,
          cam :: o.camInfos⟩, ?_, ?_, by simp [h1], by simp [h2], by simp [h3], by simp [h4]⟩
        · have : (extractLoop env states actions dm n t (rem + 1) obs cam nc cur).2 =
              consOut obs (env.resetToObs (states.getD t default))
                (env.reward (states.getD t default))
                (doneCalc dm t n (env.success (states.getD t default))) cam
                (extractLoop env states actions dm n (t + 1) rem
                  (env.resetToObs (states.getD t default))
                  (env.resetToCam (states.getD t default))
                  (some (env.resetToCam (states.getD t default)))
                  (states.getD t default)).2 := by
            simp [extractLoop, htn]
          rw [this, hok]
          rfl
        · show doneCalc dm t n (env.success (states.getD t default)) :: o.dones = _
          rw [hdones, range_map_shift (fun u => doneAt env initial states actions dm n u) t rem]
          rw [doneAt, hpost]

/-- Characterization of `extract_trajectory` when the length assertion passes:
the environment-operation trace is a reset, a reset to the initial state, then
the per-iteration operations; the call raises a `NameError` exactly on
single-step trajectories, and otherwise returns a trajectory whose fields are
characterized (`dones` by `doneAt`, the other per-step lists by their length). -/
lemma extract_trajectory_spec [Inhabited σ] [Inhabited α] (env : Env σ α Ob CI R)
    (initial : σ) (states : List σ) (actions : List α) (dm : Nat)
    (hlen : states.length = actions.length) :
    (extract_trajectory env initial states actions dm).1 =
        EnvOp.reset :: EnvOp.resetTo initial ::
          (List.range states.length).map
            (fun i => opAt states actions states.length (1 + i)) ∧
    (states.length = 1 →
      (extract_trajectory env initial states actions dm).2 =
        Except.error ExtractError.nameError) ∧
    (¬ states.length = 1 →
      ∃ traj, (extract_trajectory env initial states actions dm).2 = Except.ok traj ∧
        traj.actions = actions ∧ traj.states = states ∧
        traj.dones = (List.range states.length).map
          (fun i => doneAt env initial states actions dm states.length (1 + i)) ∧
        traj.obs.length = states.length ∧ traj.next_obs.length = states.length ∧
        traj.rewards.length = states.length ∧ traj.camInfos.length = states.length) := by
  obtain ⟨hops, herr, hok⟩ := extractLoop_spec env initial states actions dm states.length
    states.length 1 (env.resetToObs initial) (env.resetToCam initial) none initial
    (by omega) (by omega) (by simp) (by simp)
  refine ⟨?_, ?_, ?_⟩
  · rw [extract_trajectory, if_pos hlen]
    exact congrArg _ (congrArg _ hops)
  · intro h1
    have := herr ⟨by omega, by omega, rfl⟩
    rw [extract_trajectory, if_pos hlen]
    simp only [this]
  · intro h1
    obtain ⟨o, hok2, hdones, ho1, ho2, ho3, ho4⟩ := hok (by
      rintro ⟨hr, hn, -⟩
      exact h1 (by omega))
    refine ⟨⟨o.obs, o.next_obs, o.rewards, o.dones, actions, states, o.camInfos⟩, ?_,
      rfl, rfl, hdones, ho1, ho2, ho3, ho4⟩
    rw [extract_trajectory, if_pos hlen]
    simp only [hok2]

/-- If `extract_trajectory` returns a trajectory, the length assertion passed. -/
lemma extract_trajectory_ok_len [Inhabited σ] [Inhabited α] {env : Env σ α Ob CI R}
    {initial : σ} {states : List σ} {actions : List α} {dm : Nat}
    {traj : Traj σ α Ob CI R}
    (h : (extract_trajectory env initial states actions dm).2 = Except.ok traj) :
    states.length = actions.length := by
  by_contra hlen
  rw [extract_trajectory, if_neg hlen] at h
  exact Except.noConfusion h

/-- If `extract_trajectory` returns a trajectory, its `dones` list is given by
the per-iteration formula `doneAt`. -/
lemma extract_trajectory_dones [Inhabited σ] [Inhabited α] {env : Env σ α Ob CI R}
    {initial : σ} {states : List σ} {actions : List α} {dm : Nat}
    {traj : Traj σ α Ob CI R}
    (h : (extract_trajectory env initial states actions dm).2 = Except.ok traj) :
    traj.dones = (List.range states.length).map
      (fun i => doneAt env initial states actions dm states.length (1 + i)) := by
  have hlen := extract_trajectory_ok_len h
  obtain ⟨-, herr, hok⟩ := extract_trajectory_spec env initial states actions dm hlen
  by_cases h1 : states.length = 1
  · rw [herr h1] at h
    exact Except.noConfusion h
  · obtain ⟨traj2, heq, -, -, hdones, -⟩ := hok h1
    rw [heq] at h
    cases h
    exact hdones

lemma doneCalc_zero (t n : Nat) (s : Bool) : doneCalc 0 t n s = if s then 1 else 0 := rfl

lemma doneCalc_one (t n : Nat) (s : Bool) : doneCalc 1 t n s = if t = n then 1 else 0 := by
  by_cases h : t = n <;> simp [doneCalc, h]

lemma doneCalc_two (t n : Nat) (s : Bool) :
    doneCalc 2 t n s = max (doneCalc 0 t n s) (doneCalc 1 t n s) := by
  by_cases h : t = n <;> cases s <;> simp [doneCalc, h]

/-- C2: under `done_mode = 0`, the done flag written at each timestep is `1`
iff the post-transition simulator state of that timestep is a task-success
state, as reported by the environment success check. -/
theorem done_mode0_iff_success [Inhabited σ] [Inhabited α] (env : Env σ α Ob CI R)
    (initial : σ) (states : List σ) (actions : List α) (traj : Traj σ α Ob CI R)
    (h : (extract_trajectory env initial states actions 0).2 = Except.ok traj) :
    traj.dones = (postStates env initial states actions).map
      (fun s => if env.success s then 1 else 0) := by
  rw [extract_trajectory_dones h, postStates, List.map_map]
  refine List.map_congr_left fun i hi => ?_
  show doneAt env initial states actions 0 states.length (1 + i) = _
  rw [doneAt, doneCalc_zero]
  simp [Function.comp, Nat.add_sub_cancel_left]

/-- Environment instance used to witness the theorems on concrete inputs. -/
def envW : Env Nat Nat Nat Nat Nat :=
  ⟨fun s => s, fun s => s + 100, fun s a => s + a, fun s a => s + a + 1000,
    fun s => s * 2, fun s => decide (20 ≤ s)⟩

/-- The trajectory `extract_trajectory envW 7 [10, 20, 30] [1, 2, 3] 0` returns. -/
def trajW0 : Traj Nat Nat Nat Nat Nat :=
  ⟨[7, 20, 30], [20, 30, 1033], [40, 60, 66], [1, 1, 1], [1, 2, 3], [10, 20, 30],
    [107, 120, 130]⟩

/-- Witness for C2 at a concrete environment and trajectory. -/
theorem done_mode0_iff_success_witness :
    (extract_trajectory envW 7 [10, 20, 30] [1, 2, 3] 0).2 = Except.ok trajW0 ∧
    trajW0.dones = (postStates envW 7 [10, 20, 30] [1, 2, 3]).map
      (fun s => if envW.success s then 1 else 0) := by
  have h : (extract_trajectory envW 7 [10, 20, 30] [1, 2, 3] 0).2 = Except.ok trajW0 := by rfl
  exact ⟨h, done_mode0_iff_success envW 7 [10, 20, 30] [1, 2, 3] trajW0 h⟩

/-- C3: under `done_mode = 1`, the dones array has a `1` at the last index and
`0` everywhere else, regardless of success at intermediate steps. -/
theorem done_mode1_last_only [Inhabited σ] [Inhabited α] (env : Env σ α Ob CI R)
    (initial : σ) (states : List σ) (actions : List α) (traj : Traj σ α Ob CI R)
    (h : (extract_trajectory env initial states actions 1).2 = Except.ok traj) :
    traj.dones.length = states.length ∧
    ∀ i, i < states.length →
      traj.dones.getD i 0 = if i = states.length - 1 then 1 else 0 := by
  rw [extract_trajectory_dones h]
  refine ⟨by simp, fun i hi => ?_⟩
  rw [List.getD_eq_getElem _ _ (by simp [hi]), List.getElem_map, List.getElem_range]
  rw [doneAt, doneCalc_one]
  by_cases hlast : i = states.length - 1
  · rw [if_pos (by omega), if_pos hlast]
  · rw [if_neg (by omega), if_neg hlast]

/-- Witness for C3 at a concrete environment and trajectory. -/
theorem done_mode1_last_only_witness :
    (extract_trajectory envW 7 [10, 20, 30] [1, 2, 3] 1).2 =
      Except.ok ⟨[7, 20, 30], [20, 30, 1033], [40, 60, 66], [0, 0, 1], [1, 2, 3],
        [10, 20, 30], [107, 120, 130]⟩ ∧
    (⟨[7, 20, 30], [20, 30, 1033], [40, 60, 66], [0, 0, 1], [1, 2, 3],
        [10, 20, 30], [107, 120, 130]⟩ : Traj Nat Nat Nat Nat Nat).dones.length = 3 := by
  have h : (extract_trajectory envW 7 [10, 20, 30] [1, 2, 3] 1).2 =
      Except.ok ⟨[7, 20, 30], [20, 30, 1033], [40, 60, 66], [0, 0, 1], [1, 2, 3],
        [10, 20, 30], [107, 120, 130]⟩ := by rfl
  exact ⟨h, (done_mode1_last_only envW 7 [10, 20, 30] [1, 2, 3] _ h).1⟩

/-- C4: under `done_mode = 2`, the dones array is the pointwise logical OR
(`max` on the values `0`/`1`) of the dones arrays that modes `0` and `1`
produce for the same trajectory under the same environment. -/
theorem done_mode2_or [Inhabited σ] [Inhabited α] (env : Env σ α Ob CI R)
    (initial : σ) (states : List σ) (actions : List α)
    (traj2 traj0 traj1 : Traj σ α Ob CI R)
    (h2 : (extract_trajectory env initial states actions 2).2 = Except.ok traj2)
    (h0 : (extract_trajectory env initial states actions 0).2 = Except.ok traj0)
    (h1 : (extract_trajectory env initial states actions 1).2 = Except.ok traj1) :
    traj2.dones = List.zipWith max traj0.dones traj1.dones := by
  rw [extract_trajectory_dones h2, extract_trajectory_dones h0, extract_trajectory_dones h1,
    List.zipWith_map_left, List.zipWith_map_right, List.zipWith_same]
  refine List.map_congr_left fun i hi => ?_
  rw [doneAt, doneAt, doneAt, doneCalc_two]

/-- Witness for C4 at a concrete environment and trajectory. -/
theorem done_mode2_or_witness :
    (extract_trajectory envW 7 [10, 20, 30] [1, 2, 3] 2).2 =
      Except.ok ⟨[7, 20, 30], [20, 30, 1033], [40, 60, 66], [1, 1, 1], [1, 2, 3],
        [10, 20, 30], [107, 120, 130]⟩ ∧
    ([1, 1, 1] : List Nat) = List.zipWith max [1, 1, 1] [0, 0, 1] := by
  have h2 : (extract_trajectory envW 7 [10, 20, 30] [1, 2, 3] 2).2 =
      Except.ok ⟨[7, 20, 30], [20, 30, 1033], [40, 60, 66], [1, 1, 1], [1, 2, 3],
        [10, 20, 30], [107, 120, 130]⟩ := by rfl
  have h0 : (extract_trajectory envW 7 [10, 20, 30] [1, 2, 3] 0).2 =
      Except.ok trajW0 := by rfl
  have h1 : (extract_trajectory envW 7 [10, 20, 30] [1, 2, 3] 1).2 =
      Except.ok ⟨[7, 20, 30], [20, 30, 1033], [40, 60, 66], [0, 0, 1], [1, 2, 3],
        [10, 20, 30], [107, 120, 130]⟩ := by rfl
  exact ⟨h2, done_mode2_or envW 7 [10, 20, 30] [1, 2, 3] _ _ _ h2 h0 h1⟩

lemma opsFrom_eq [Inhabited σ] [Inhabited α] (states : List σ) (actions : List α)
    (n : Nat) (hn : 1 ≤ n) :
    (List.range n).map (fun i => (opAt states actions n (1 + i) : EnvOp σ α)) =
      (List.range (n - 1)).map (fun i => EnvOp.resetTo (states.getD (i + 1) default)) ++
        [EnvOp.step (actions.getD (n - 1) default)] := by
  obtain ⟨m, rfl⟩ : ∃ m, n = m + 1 := ⟨n - 1, by omega⟩
  rw [List.range_succ, List.map_append]
  refine congrArg₂ _ (List.map_congr_left fun i hi => ?_) ?_
  · rw [List.mem_range] at hi
    rw [opAt, if_neg (by omega)]
    exact congrArg _ (congrArg₂ _ (by omega) rfl)
  · have h1 : 1 + m = m + 1 := by omega
    simp [opAt, h1]

/-- C9: the replay loop is preceded by a reset and a reset to the trajectory's
initial state; each non-final step obtains the next observation by resetting
the simulator to the recorded state `states[t]`, and the final step by
stepping the environment with the final recorded action `actions[n-1]`. -/
theorem replay_loop_ops [Inhabited σ] [Inhabited α] (env : Env σ α Ob CI R)
    (initial : σ) (states : List σ) (actions : List α) (dm : Nat)
    (hlen : states.length = actions.length) (hn : 1 ≤ states.length) :
    (extract_trajectory env initial states actions dm).1 =
      EnvOp.reset :: EnvOp.resetTo initial ::
        ((List.range (states.length - 1)).map
            (fun i => EnvOp.resetTo (states.getD (i + 1) default)) ++
          [EnvOp.step (actions.getD (states.length - 1) default)]) := by
  obtain ⟨hops, -, -⟩ := extract_trajectory_spec env initial states actions dm hlen
  rw [hops, opsFrom_eq states actions states.length hn]

/-- Witness for C9 at a concrete environment and trajectory. -/
theorem replay_loop_ops_witness :
    ([10, 20, 30] : List Nat).length = ([1, 2, 3] : List Nat).length ∧
    (extract_trajectory envW 7 [10, 20, 30] [1, 2, 3] 0).1 =
      [EnvOp.reset, EnvOp.resetTo 7, EnvOp.resetTo 20, EnvOp.resetTo 30, EnvOp.step 3] :=
  ⟨rfl, replay_loop_ops envW 7 [10, 20, 30] [1, 2, 3] 0 rfl (by decide)⟩

/-- C10: on a trajectory of length exactly `1` the replay loop takes only the
final-step branch, so the local `next_camera_info` is read without ever having
been assigned and `extract_trajectory` raises a `NameError`; a trajectory of
length at least `2` completes and returns a trajectory. -/
theorem length_one_name_error [Inhabited σ] [Inhabited α] (env : Env σ α Ob CI R)
    (initial : σ) (dm : Nat) :
    (∀ (s : σ) (a : α), (extract_trajectory env initial [s] [a] dm).2 =
        Except.error ExtractError.nameError) ∧
    (∀ (states : List σ) (actions : List α), states.length = actions.length →
      2 ≤ states.length →
      ∃ traj, (extract_trajectory env initial states actions dm).2 = Except.ok traj) := by
  constructor
  · intro s a
    obtain ⟨-, herr, -⟩ := extract_trajectory_spec env initial [s] [a] dm rfl
    exact herr rfl
  · intro states actions hlen h2
    obtain ⟨-, -, hok⟩ := extract_trajectory_spec env initial states actions dm hlen
    obtain ⟨traj, htraj, -⟩ := hok (by omega)
    exact ⟨traj, htraj⟩

/-- Witness for C10 at a concrete environment. -/
theorem length_one_name_error_witness :
    (extract_trajectory envW 7 [10] [1] 0).2 = Except.error ExtractError.nameError ∧
    ∃ traj, (extract_trajectory envW 7 [10, 20] [1, 2] 0).2 = Except.ok traj :=
  ⟨(length_one_name_error envW 7 0).1 10 1,
    (length_one_name_error envW 7 0).2 [10, 20] [1, 2] rfl (by decide)⟩

/-- If `extract_trajectory` returns a trajectory, its `actions`/`states`
fields are the inputs and every per-step list has one entry per input state. -/
lemma extract_trajectory_ok_fields [Inhabited σ] [Inhabited α] {env : Env σ α Ob CI R}
    {initial : σ} {states : List σ} {actions : List α} {dm : Nat}
    {traj : Traj σ α Ob CI R}
    (h : (extract_trajectory env initial states actions dm).2 = Except.ok traj) :
    traj.actions = actions ∧ traj.states = states ∧
    traj.obs.length = states.length ∧ traj.next_obs.length = states.length ∧
    traj.rewards.length = states.length ∧ traj.dones.length = states.length := by
  have hlen := extract_trajectory_ok_len h
  obtain ⟨-, herr, hok⟩ := extract_trajectory_spec env initial states actions dm hlen
  by_cases h1 : states.length = 1
  · rw [herr h1] at h
    exact Except.noConfusion h
  · obtain ⟨traj2, heq, ha, hs, hd, ho1, ho2, ho3, -⟩ := hok h1
    rw [heq] at h
    cases h
    exact ⟨ha, hs, ho1, ho2, ho3, by rw [hd]; simp⟩

/-- Modelled from the spec: `TensorUtils.list_of_flat_dict_to_dict_of_list`
(`robomimic/utils/tensor_utils.py`, not under `src/`) reshapes the list of
per-step observation dicts into a dict of per-modality lists, so the array
written at `obs/<modality>` is the per-step list of that modality's values.
A modality is modelled as an extraction function on observation dicts. -/
def modality_array {V : Type} (obs : List Ob) (modal : Ob → V) : List V :=
  obs.map modal

/-- The command-line flags of the script that the data processing reads. -/
structure Args : Type where
  camera_names : List String
  camera_height : Nat
  camera_width : Nat
  depth : Bool
  done_mode : Nat
  copy_rewards : Bool
  copy_dones : Bool
  exclude_next_obs : Bool
  compress : Bool
deriving DecidableEq, Repr

/-- One demonstration group of the source HDF5 file: its `states` and
`actions` datasets, and the `rewards`/`dones` datasets read when the
corresponding copy flag is set. -/
structure SrcDemo (σ α R : Type) : Type where
  states : List σ
  actions : List α
  rewards : List R
  dones : List Nat
deriving DecidableEq, Repr

/-- The datasets written for one episode group of the output HDF5 file
(lines 393-418): `actions`, `states`, `rewards`, `dones`, the per-step
observation dicts (written per modality), optionally the per-step next
observation dicts, and the `num_samples` attribute. -/
structure OutEp (σ α Ob CI R : Type) : Type where
  actions : List α
  states : List σ
  rewards : List R
  dones : List Nat
  obs : List Ob
  next_obs : Option (List Ob)
  num_samples : Nat
deriving DecidableEq, Repr

/-- The per-trajectory body of the loop of `dataset_states_to_obs`
(lines 361-424): extract the trajectory by replay, then maybe copy the reward
or done signal from the source file (lines 383-387), then build the episode
group to write (lines 393-418), omitting `next_obs` when excluded. -/
def processDemo [Inhabited σ] [Inhabited α] (args : Args) (env : Env σ α Ob CI R)
    (demo : SrcDemo σ α R) : Except ExtractError (OutEp σ α Ob CI R) :=
  Except.map
    (fun traj =>
      { actions := traj.actions
        states := traj.states
        rewards := if args.copy_rewards then demo.rewards else traj.rewards
        dones := if args.copy_dones then demo.dones else traj.dones
        obs := traj.obs
        next_obs := if args.exclude_next_obs then none else some traj.next_obs
        num_samples := traj.actions.length })
    (extract_trajectory env (demo.states.getD 0 default) demo.states demo.actions
      args.done_mode).2

/-- Process the demonstrations in order, stopping at the first exception. -/
def processAll [Inhabited σ] [Inhabited α] (args : Args) (env : Env σ α Ob CI R) :
    List (SrcDemo σ α R) → Except ExtractError (List (OutEp σ α Ob CI R))
  | [] => Except.ok []
  | d :: ds =>
    match processDemo args env d with
    | Except.error e => Except.error e
    | Except.ok ep =>
      match processAll args env ds with
      | Except.error e => Except.error e
      | Except.ok eps => Except.ok (ep :: eps)

/-- `dataset_states_to_obs(args)` (lines 295-437): first the assertion
`len(args.camera_names) > 0` when depth observations are requested
(lines 296-297), then each demonstration is processed in turn. -/
def dataset_states_to_obs [Inhabited σ] [Inhabited α] (args : Args)
    (env : Env σ α Ob CI R) (demos : List (SrcDemo σ α R)) :
    Except ExtractError (List (OutEp σ α Ob CI R)) :=
  if args.depth && (args.camera_names.length == 0) then
    Except.error ExtractError.assertionError
  else processAll args env demos

/-- C1: for a source trajectory with `n` states (and well-formed source
reward/done arrays of the same length, as the copy flags may install them
verbatim), every array written for that episode — `actions`, `states`,
`rewards`, `dones`, and every `obs/<modality>` and `next_obs/<modality>`
array — has length exactly `n`. -/
theorem output_lengths [Inhabited σ] [Inhabited α] (args : Args) (env : Env σ α Ob CI R)
    (demo : SrcDemo σ α R) (ep : OutEp σ α Ob CI R)
    (hr : demo.rewards.length = demo.states.length)
    (hd : demo.dones.length = demo.states.length)
    (hok : processDemo args env demo = Except.ok ep) :
    ep.actions.length = demo.states.length ∧
    ep.states.length = demo.states.length ∧
    ep.rewards.length = demo.states.length ∧
    ep.dones.length = demo.states.length ∧
    (∀ (V : Type) (modal : Ob → V),
      (modality_array ep.obs modal).length = demo.states.length) ∧
    (∀ nextObs, ep.next_obs = some nextObs → ∀ (V : Type) (modal : Ob → V),
      (modality_array nextObs modal).length = demo.states.length) := by
  rw [processDemo] at hok
  cases heq : (extract_trajectory env (demo.states.getD 0 default) demo.states demo.actions
      args.done_mode).2 with
  | error e => rw [heq] at hok; exact Except.noConfusion hok
  | ok traj =>
    rw [heq] at hok
    cases hok
    obtain ⟨ha, hs, ho1, ho2, ho3, ho4⟩ := extract_trajectory_ok_fields heq
    have hlen := extract_trajectory_ok_len heq
    refine ⟨?_, ?_, ?_, ?_, ?_, ?_⟩
    · show traj.actions.length = _
      rw [ha, ← hlen]
    · show traj.states.length = _
      rw [hs]
    · show (if args.copy_rewards then demo.rewards else traj.rewards).length = _
      by_cases hc : args.copy_rewards = true
      · rw [if_pos hc, hr]
      · rw [if_neg hc, ho3]
    · show (if args.copy_dones then demo.dones else traj.dones).length = _
      by_cases hc : args.copy_dones = true
      · rw [if_pos hc, hd]
      · rw [if_neg hc, ho4]
    · intro V modal
      show (traj.obs.map modal).length = _
      rw [List.length_map, ho1]
    · intro nextObs hno V modal
      have hno2 : (if args.exclude_next_obs then none else some traj.next_obs) =
          some nextObs := hno
      by_cases he : args.exclude_next_obs = true
      · rw [if_pos he] at hno2
        exact Option.noConfusion hno2
      · rw [if_neg he] at hno2
        cases hno2
        show (traj.next_obs.map modal).length = _
        rw [List.length_map, ho2]

/-- Arguments instance used to witness the dataset-level theorems. -/
def argsW : Args :=
  ⟨["agentview"], 84, 84, false, 0, true, true, false, false⟩

/-- The source demonstration used to witness the dataset-level theorems. -/
def demoW : SrcDemo Nat Nat Nat :=
  ⟨[10, 20, 30], [1, 2, 3], [7, 8, 9], [0, 0, 1]⟩

/-- The episode `processDemo argsW envW demoW` produces: rewards and dones are
copied from the source, the rest comes from the replayed trajectory. -/
def epW : OutEp Nat Nat Nat Nat Nat :=
  ⟨[1, 2, 3], [10, 20, 30], [7, 8, 9], [0, 0, 1], [10, 20, 30], some [20, 30, 33 + 1000], 3⟩

/-- Witness for C1 at a concrete environment and source demonstration. -/
theorem output_lengths_witness :
    demoW.rewards.length = demoW.states.length ∧
    demoW.dones.length = demoW.states.length ∧
    processDemo argsW envW demoW = Except.ok epW ∧
    (modality_array epW.obs (fun ob => ob + 1)).length = demoW.states.length := by
  have hok : processDemo argsW envW demoW = Except.ok epW := by rfl
  exact ⟨rfl, rfl, hok,
    (output_lengths argsW envW demoW epW rfl rfl hok).2.2.2.2.1 Nat (fun ob => ob + 1)⟩

/-- C5: when `copy_rewards` is set the written rewards array is the source
file's rewards array verbatim, and when `copy_dones` is set the written dones
array is the source dones array verbatim, the simulator-inferred values being
discarded. -/
theorem copy_flags_override [Inhabited σ] [Inhabited α] (args : Args)
    (env : Env σ α Ob CI R) (demo : SrcDemo σ α R) (ep : OutEp σ α Ob CI R)
    (hok : processDemo args env demo = Except.ok ep) :
    (args.copy_rewards = true → ep.rewards = demo.rewards) ∧
    (args.copy_dones = true → ep.dones = demo.dones) := by
  rw [processDemo] at hok
  cases heq : (extract_trajectory env (demo.states.getD 0 default) demo.states demo.actions
      args.done_mode).2 with
  | error e => rw [heq] at hok; exact Except.noConfusion hok
  | ok traj =>
    rw [heq] at hok
    cases hok
    constructor
    · intro hc
      show (if args.copy_rewards then demo.rewards else traj.rewards) = _
      rw [if_pos hc]
    · intro hc
      show (if args.copy_dones then demo.dones else traj.dones) = _
      rw [if_pos hc]

/-- Witness for C5: with both copy flags set, the written rewards/dones are
the source arrays, not the simulator-inferred ones. -/
theorem copy_flags_override_witness :
    processDemo argsW envW demoW = Except.ok epW ∧
    epW.rewards = demoW.rewards ∧ epW.dones = demoW.dones := by
  have hok : processDemo argsW envW demoW = Except.ok epW := by rfl
  exact ⟨hok, (copy_flags_override argsW envW demoW epW hok).1 rfl,
    (copy_flags_override argsW envW demoW epW hok).2 rfl⟩

/-- Does `pat` occur at the head of `s`?  (Models Python `s.startswith(pat)`
when applied to the whole string.) -/
def leadMatch : List Char → List Char → Bool
  | [], _ => true
  | _ :: _, [] => false
  | a :: as, b :: bs => a == b && leadMatch as bs

/-- Does `pat` occur somewhere inside `s`?  (Models Python `pat in s`.) -/
def containsSub (pat : List Char) : List Char → Bool
  | [] => leadMatch pat []
  | c :: rest => leadMatch pat (c :: rest) || containsSub pat rest

/-- `"eye_in_hand" in cam_name` (line 268). -/
def hasEyeInHand (s : String) : Bool :=
  containsSub "eye_in_hand".toList s.toList

/-- `cam_name.startswith("robot0")` (line 270). -/
def startsRobot0 (s : String) : Bool :=
  leadMatch "robot0".toList s.toList

/-- A 3x3 matrix over the rationals (a MuJoCo site rotation). -/
def Mat3 : Type := Fin 3 → Fin 3 → ℚ

/-- A 4x4 matrix over the rationals (a homogeneous rigid transform). -/
def Mat4 : Type := Fin 4 → Fin 4 → ℚ

/-- Matrix product of two 4x4 matrices (`np.dot`). -/
def mat4Mul (A B : Mat4) : Mat4 :=
  fun i j => ∑ k : Fin 4, A i k * B k j

/-- The homogeneous pose built at lines 274-277: rotation block `rot`,
translation column `pos`, bottom row `(0, 0, 0, 1)` (from `np.zeros((4,4))`
followed by the three block assignments). -/
def eefPose (rot : Mat3) (pos : Fin 3 → ℚ) : Mat4 :=
  fun i j =>
    if hi : (i : Nat) < 3 then
      if hj : (j : Nat) < 3 then rot ⟨i.1, hi⟩ ⟨j.1, hj⟩ else pos ⟨i.1, hi⟩
    else if (j : Nat) < 3 then 0 else 1

/-- The rigid-transform inverse built at lines 278-281: rotation block
`rotᵀ`, translation column `-(rotᵀ · pos)`, bottom row `(0, 0, 0, 1)`. -/
def eefPoseInv (rot : Mat3) (pos : Fin 3 → ℚ) : Mat4 :=
  fun i j =>
    if hi : (i : Nat) < 3 then
      if hj : (j : Nat) < 3 then rot ⟨j.1, hj⟩ ⟨i.1, hi⟩
      else -(∑ k : Fin 3, rot k ⟨i.1, hi⟩ * pos k)
    else if (j : Nat) < 3 then 0 else 1

/-- The intrinsics/extrinsics pair recorded per camera (lines 283-286).
The intrinsic matrix type `K` is abstract: the claims only concern the
extrinsics. -/
structure CamRec (K : Type) : Type where
  intrinsics : K
  extrinsics : Mat4

/-- Abstract model of the environment facts read by `get_camera_info`:
whether the environment is a robosuite environment, the camera intrinsic and
extrinsic matrices it reports, and the end-effector site position and rotation
read from the MuJoCo data (lines 271-273). -/
structure CamEnv (K : Type) : Type where
  isRobosuite : Bool
  intrinsic : String → Nat → Nat → K
  extrinsic : String → Mat4
  eefPos : Fin 3 → ℚ
  eefRot : Mat3

/-- The per-camera body of the loop of `get_camera_info` (lines 265-286):
read intrinsics and extrinsics; for an `eye_in_hand` camera, assert the name
starts with `robot0` and post-multiply the extrinsic matrix by the rigid
inverse of the end-effector pose (`R = R.dot(eef_pose_inv)`, line 282). -/
def camRecord {K : Type} (env : CamEnv K) (name : String) (h w : Nat) :
    Except ExtractError (CamRec K) :=
  let Kmat := env.intrinsic name h w
  let R := env.extrinsic name
  if hasEyeInHand name then
    if startsRobot0 name then
      Except.ok ⟨Kmat, mat4Mul R (eefPoseInv env.eefRot env.eefPos)⟩
    else Except.error ExtractError.assertionError
  else Except.ok ⟨Kmat, R⟩

/-- The camera loop of `get_camera_info`, building the record for each
camera name in order (the Python dict keyed by insertion order). -/
def buildCamInfo {K : Type} (env : CamEnv K) (h w : Nat) :
    List String → Except ExtractError (List (String × CamRec K))
  | [] => Except.ok []
  | nm :: rest =>
    match camRecord env nm h w with
    | Except.error e => Except.error e
    | Except.ok r =>
      match buildCamInfo env h w rest with
      | Except.error e => Except.error e
      | Except.ok out => Except.ok ((nm, r) :: out)

/-- `get_camera_info(env, camera_names, camera_height, camera_width)`
(lines 248-287): assert the environment is a robosuite environment
(line 259), return `None` when no camera names are given (lines 261-262),
otherwise build the per-camera info dict. -/
def get_camera_info {K : Type} (env : CamEnv K) (camera_names : Option (List String))
    (h w : Nat) : Except ExtractError (Option (List (String × CamRec K))) :=
  if env.isRobosuite then
    match camera_names with
    | none => Except.ok none
    | some names =>
      match buildCamInfo env h w names with
      | Except.error e => Except.error e
      | Except.ok recs => Except.ok (some recs)
  else Except.error ExtractError.assertionError

/-- Every entry of a successfully built camera-info dict is the record
`camRecord` computes for its own name. -/
lemma buildCamInfo_mem {K : Type} (env : CamEnv K) (h w : Nat) :
    ∀ (names : List String) (out : List (String × CamRec K)),
      buildCamInfo env h w names = Except.ok out →
      ∀ p, p ∈ out → camRecord env p.1 h w = Except.ok p.2
  | [], out, hout => by
    rw [buildCamInfo] at hout
    cases hout
    intro p hp
    exact absurd hp (List.not_mem_nil p)
  | nm :: rest, out, hout => by
    rw [buildCamInfo] at hout
    cases hr : camRecord env nm h w with
    | error e => rw [hr] at hout; exact Except.noConfusion hout
    | ok r =>
      rw [hr] at hout
      cases hrest : buildCamInfo env h w rest with
      | error e => rw [hrest] at hout; exact Except.noConfusion hout
      | ok out2 =>
        rw [hrest] at hout
        cases hout
        intro p hp
        rcases List.mem_cons.mp hp with hp1 | hp2
        · cases hp1
          exact hr
        · exact buildCamInfo_mem env h w rest out2 hrest p hp2

/-- If `get_camera_info` succeeds with a dict, each entry is determined by
`camRecord` on its name. -/
lemma get_camera_info_mem {K : Type} {env : CamEnv K} {names : List String}
    {h w : Nat} {recs : List (String × CamRec K)}
    (hok : get_camera_info env (some names) h w = Except.ok (some recs)) :
    ∀ p, p ∈ recs → camRecord env p.1 h w = Except.ok p.2 := by
  rw [get_camera_info] at hok
  by_cases hrob : env.isRobosuite = true
  · rw [if_pos hrob] at hok
    cases hb : buildCamInfo env h w names with
    | error e => rw [hb] at hok; exact Except.noConfusion hok
    | ok out =>
      rw [hb] at hok
      have hor : out = recs := by
        injection hok with h1
        injection h1
      subst hor
      exact buildCamInfo_mem env h w names out hb
  · rw [if_neg hrob] at hok
    exact Except.noConfusion hok

/-- C6: for a camera whose name does not contain `"eye_in_hand"`, the
extrinsics `get_camera_info` records for it are the raw extrinsic matrix
obtained from the simulator, unchanged. -/
theorem nonwrist_extrinsics_raw {K : Type} (env : CamEnv K) (names : List String)
    (h w : Nat) (recs : List (String × CamRec K)) (nm : String) (r : CamRec K)
    (hok : get_camera_info env (some names) h w = Except.ok (some recs))
    (hmem : (nm, r) ∈ recs) (heye : hasEyeInHand nm = false) :
    r.extrinsics = env.extrinsic nm := by
  have hrec := get_camera_info_mem hok (nm, r) hmem
  rw [camRecord] at hrec
  rw [heye] at hrec
  simp only [Bool.false_eq_true, if_false] at hrec
  cases hrec
  rfl

/-- C7: for a camera whose name contains `"eye_in_hand"`, the extrinsics
recorded are the raw extrinsic matrix post-composed with the rigid-transform
inverse of the end-effector pose, the inverse being built as the block matrix
with rotation `Rᵀ` and translation `-(Rᵀ · p)` from the end-effector rotation
`R` and position `p`. -/
theorem wrist_extrinsics_composed {K : Type} (env : CamEnv K) (names : List String)
    (h w : Nat) (recs : List (String × CamRec K)) (nm : String) (r : CamRec K)
    (hok : get_camera_info env (some names) h w = Except.ok (some recs))
    (hmem : (nm, r) ∈ recs) (heye : hasEyeInHand nm = true) :
    r.extrinsics = mat4Mul (env.extrinsic nm) (eefPoseInv env.eefRot env.eefPos) := by
  have hrec := get_camera_info_mem hok (nm, r) hmem
  rw [camRecord] at hrec
  rw [heye] at hrec
  simp only [if_true] at hrec
  by_cases hrob : startsRobot0 nm = true
  · rw [hrob] at hrec
    simp only [if_true] at hrec
    cases hrec
    rfl
  · rw [Bool.not_eq_true] at hrob
    rw [hrob] at hrec
    simp only [Bool.false_eq_true, if_false] at hrec
    exact Except.noConfusion hrec

/-- Camera environment instance used to witness the camera theorems. -/
def camEnvW : CamEnv Nat :=
  ⟨true, fun _ _ _ => 5, fun nm i j => (nm.length : ℚ) + (i : ℚ) + (j : ℚ),
    fun i => (i : ℚ), fun i j => (i : ℚ) * 3 + (j : ℚ)⟩

/-- Witness for C6: `get_camera_info` on the camera list
`["frontview", "robot0_eye_in_hand"]` records the raw extrinsics for the
non-wrist camera. -/
theorem nonwrist_extrinsics_raw_witness :
    get_camera_info camEnvW (some ["frontview", "robot0_eye_in_hand"]) 84 84 =
      Except.ok (some
        [("frontview", ⟨5, camEnvW.extrinsic "frontview"⟩),
         ("robot0_eye_in_hand",
           ⟨5, mat4Mul (camEnvW.extrinsic "robot0_eye_in_hand")
             (eefPoseInv camEnvW.eefRot camEnvW.eefPos)⟩)]) ∧
    (CamRec.mk 5 (camEnvW.extrinsic "frontview")).extrinsics =
      camEnvW.extrinsic "frontview" := by
  have hok : get_camera_info camEnvW (some ["frontview", "robot0_eye_in_hand"]) 84 84 =
      Except.ok (some
        [("frontview", ⟨5, camEnvW.extrinsic "frontview"⟩),
         ("robot0_eye_in_hand",
           ⟨5, mat4Mul (camEnvW.extrinsic "robot0_eye_in_hand")
             (eefPoseInv camEnvW.eefRot camEnvW.eefPos)⟩)]) := by rfl
  refine ⟨hok, nonwrist_extrinsics_raw camEnvW _ 84 84 _ "frontview" _ hok ?_ (by rfl)⟩
  exact List.mem_cons_self _ _

/-- Witness for C7: the wrist camera's recorded extrinsics are the raw
extrinsics composed with the rigid inverse of the end-effector pose. -/
theorem wrist_extrinsics_composed_witness :
    get_camera_info camEnvW (some ["frontview", "robot0_eye_in_hand"]) 84 84 =
      Except.ok (some
        [("frontview", ⟨5, camEnvW.extrinsic "frontview"⟩),
         ("robot0_eye_in_hand",
           ⟨5, mat4Mul (camEnvW.extrinsic "robot0_eye_in_hand")
             (eefPoseInv camEnvW.eefRot camEnvW.eefPos)⟩)]) ∧
    (CamRec.mk 5 (mat4Mul (camEnvW.extrinsic "robot0_eye_in_hand")
        (eefPoseInv camEnvW.eefRot camEnvW.eefPos))).extrinsics =
      mat4Mul (camEnvW.extrinsic "robot0_eye_in_hand")
        (eefPoseInv camEnvW.eefRot camEnvW.eefPos) := by
  have hok : get_camera_info camEnvW (some ["frontview", "robot0_eye_in_hand"]) 84 84 =
      Except.ok (some
        [("frontview", ⟨5, camEnvW.extrinsic "frontview"⟩),
         ("robot0_eye_in_hand",
           ⟨5, mat4Mul (camEnvW.extrinsic "robot0_eye_in_hand")
             (eefPoseInv camEnvW.eefRot camEnvW.eefPos)⟩)]) := by rfl
  refine ⟨hok, wrist_extrinsics_composed camEnvW _ 84 84 _ "robot0_eye_in_hand" _ hok ?_
    (by rfl)⟩
  exact List.mem_cons_of_mem _ (List.mem_cons_self _ _)

/-- C8: each malformed-input assertion fails fast.  A state/action count
mismatch makes `extract_trajectory` raise an assertion error before touching
the environment (empty operation trace); requesting depth observations with an
empty camera list makes `dataset_states_to_obs` raise an assertion error
before processing any demonstration; calling `get_camera_info` on a
non-robosuite environment raises an assertion error without producing any
camera info. -/
theorem assertions_fail_fast :
    (∀ (σ α Ob CI R : Type) (inst1 : Inhabited σ) (inst2 : Inhabited α)
      (env : Env σ α Ob CI R) (initial : σ) (states : List σ) (actions : List α)
      (dm : Nat), ¬ states.length = actions.length →
      extract_trajectory env initial states actions dm =
        ([], Except.error ExtractError.assertionError)) ∧
    (∀ (σ α Ob CI R : Type) (inst1 : Inhabited σ) (inst2 : Inhabited α)
      (args : Args) (env : Env σ α Ob CI R) (demos : List (SrcDemo σ α R)),
      args.depth = true → args.camera_names = [] →
      dataset_states_to_obs args env demos = Except.error ExtractError.assertionError) ∧
    (∀ (K : Type) (env : CamEnv K) (camera_names : Option (List String)) (h w : Nat),
      env.isRobosuite = false →
      get_camera_info env camera_names h w = Except.error ExtractError.assertionError) := by
  refine ⟨?_, ?_, ?_⟩
  · intro σ α Ob CI R inst1 inst2 env initial states actions dm hlen
    rw [extract_trajectory, if_neg hlen]
  · intro σ α Ob CI R inst1 inst2 args env demos hdepth hcams
    rw [dataset_states_to_obs, if_pos (by rw [hdepth, hcams]; rfl)]
  · intro K env camera_names h w hrob
    simp [get_camera_info, hrob]

/-- Arguments requesting depth with an empty camera list. -/
def argsDepthW : Args := ⟨[], 84, 84, true, 0, false, false, false, false⟩

/-- Camera environment that is not a robosuite environment. -/
def camEnvBadW : CamEnv Nat := ⟨false, fun _ _ _ => 0, fun _ _ _ => 0, fun _ => 0, fun _ _ => 0⟩

/-- Witness for C8: all three assertions observed failing on concrete
malformed inputs. -/
theorem assertions_fail_fast_witness :
    extract_trajectory envW 7 [10, 20] ([1] : List Nat) 0 =
      ([], Except.error ExtractError.assertionError) ∧
    dataset_states_to_obs argsDepthW envW ([] : List (SrcDemo Nat Nat Nat)) =
      Except.error ExtractError.assertionError ∧
    get_camera_info camEnvBadW (some ["agentview"]) 84 84 =
      Except.error ExtractError.assertionError :=
  ⟨assertions_fail_fast.1 Nat Nat Nat Nat Nat inferInstance inferInstance envW 7
      [10, 20] [1] 0 (by decide),
    assertions_fail_fast.2.1 Nat Nat Nat Nat Nat inferInstance inferInstance argsDepthW
      envW [] rfl rfl,
    assertions_fail_fast.2.2 Nat camEnvBadW (some ["agentview"]) 84 84 rfl⟩

end DatasetStatesToObs
